import Mathlib

/-!
Verification of the safe-local-exec provisioner core (`exec` package,
`applyFn` and its helpers) against its natural-language specification.

The Go source is shallowly embedded: pure computations (timeout capping,
`strconv.Atoi`, argument-vector construction, environment-entry building,
message formatting) become Lean functions; the sequential control flow of
`applyFn` (validate, parse ceiling, allocate pipe, spawn, wait, close the
write end, final three-way select) becomes a function from the
configuration and an oracle describing the ambient OS behaviour (getenv
result, pipe/start/wait outcomes, which select arm fires, the pgid lookup)
to a result together with an ordered trace of OS-visible effects.

Two collaborators used by `applyFn` are external libraries whose sources
are not part of this repository (github.com/armon/circbuf and
github.com/mitchellh/go-linereader); those are modelled from the spec, as
marked on their definitions.
-/

namespace SafeLocalExec

/-- `l.drop (l.length - n)`: the suffix of at most `n` most recent
elements. Used to state what a bounded most-recent-bytes buffer retains. -/
def tailN (n : Nat) (l : List α) : List α := l.drop (l.length - n)

/-- Source constant `maxBufSize = 8 * 1024` (part_000, line 27): cap on the
collected output. -/
def maxBufSize : Nat := 8 * 1024

/-- Source constant `MaxTimeOut = "MAX_TIMEOUT"` (part_000, line 28): the
environment variable holding the timeout ceiling. -/
def MaxTimeOut : String := "MAX_TIMEOUT"

/-- A dynamically typed Go configuration value (`interface\x7b\x7d`), as it
reaches `applyFn` through the untyped `*schema.ResourceData` map. -/
inductive GoValue where
  | str (s : String)
  | num (n : Int)
  | boolean (b : Bool)
  deriving DecidableEq, Repr

/-- Whether a dynamic value would pass the `.(string)` type assertion. -/
def isStringVal : GoValue → Bool
  | GoValue.str _ => true
  | _ => false

/-- The provisioner configuration visible to `applyFn` via `data.Get`:
`command`, `environment`, `interpreter`, `working_dir`, and the resolved
`timeout` (0 when the optional field is absent, as `data.GetOk` leaves the
zero value). -/
structure ProvConfig where
  command : String
  environment : List (String × GoValue)
  interpreter : List GoValue
  workingDir : String
  timeout : Int
  deriving DecidableEq, Repr

/-- `strconv.Atoi`: an optional sign followed by at least one decimal
digit. (64-bit range errors are not modelled; the claims only involve
small ceilings.) -/
def atoi (s : String) : Except String Int :=
  let bad : Except String Int :=
    Except.error ("strconv.Atoi: parsing \x22" ++ s ++ "\x22: invalid syntax")
  let digits : List Char → Bool := fun l =>
    decide (l ≠ []) && l.all (fun c => decide ('0' ≤ c ∧ c ≤ '9'))
  let value : List Char → Int := fun l =>
    Int.ofNat (l.foldl (fun n c => n * 10 + (c.toNat - 48)) 0)
  match s.data with
  | [] => bad
  | '+' :: rest => if digits rest then Except.ok (value rest) else bad
  | '-' :: rest => if digits rest then Except.ok (-(value rest)) else bad
  | l => if digits l then Except.ok (value l) else bad

/-- Lines 113–119 of part_000: cap the requested timeout by the ceiling
`mTimeout` parsed from `MAX_TIMEOUT`:
`if timeout > mTimeout && mTimeout != 0 \x7b timeout = mTimeout \x7d` then
`if timeout == 0 \x7b timeout = mTimeout \x7d`. -/
def capTimeout (timeout mTimeout : Int) : Int :=
  let t1 := if timeout > mTimeout ∧ mTimeout ≠ 0 then mTimeout else timeout
  if t1 = 0 then mTimeout else t1

/-- Lines 105–121 of part_000: read `MAX_TIMEOUT` (its `os.Getenv` result
is `maxTimeoutEnv`, the empty string meaning unset), `strconv.Atoi` it when
non-empty (returning the parse error as-is on failure), and cap the
requested timeout. -/
def computeTimeout (timeout : Int) (maxTimeoutEnv : String) : Except String Int :=
  if maxTimeoutEnv.length ≠ 0 then
    match atoi maxTimeoutEnv with
    | Except.error e => Except.error e
    | Except.ok m => Except.ok (capTimeout timeout m)
  else
    Except.ok timeout

/-- Lines 73–77 of part_000: build the `k=v` environment entries in map
order; a non-string value hits the unchecked `environment[k].(string)`
assertion and panics (modelled as the `error` side, distinct from the
function's normal error return). -/
def buildEnv : List (String × GoValue) → Except String (List String)
  | [] => Except.ok []
  | (k, v) :: rest =>
    match v with
    | GoValue.str s =>
      (match buildEnv rest with
       | Except.ok es => Except.ok ((k ++ "=" ++ s) :: es)
       | Except.error p => Except.error p)
    | _ => Except.error "interface conversion: interface \x7b\x7d is not string"

/-- Lines 80–96 of part_000: the argument vector. A non-empty interpreter
list keeps only its string elements (the `ok`-form assertion drops the
rest silently); otherwise a platform default shell is used; the command
text is appended last. -/
def buildCmdArgs (goos : String) (interpreter : List GoValue) (command : String) : List String :=
  let base :=
    if interpreter.length > 0 then
      interpreter.filterMap (fun v => match v with | GoValue.str s => some s | _ => none)
    else if goos = "windows" then ["cmd", "/C"]
    else ["/bin/sh", "-c"]
  base ++ [command]

/-- Modelled from the spec: the Bounded Output Buffer (section 4.1), the
`circbuf.Buffer` used at part_000 line 156 whose source is the external
github.com/armon/circbuf library, not part of this repository. It
"retains at most a fixed capacity of the most recently written bytes,
discarding the oldest bytes first when capacity is exceeded". -/
structure BoundedBuffer where
  size : Nat
  data : List Nat
  deriving DecidableEq, Repr

/-- Modelled from the spec: `circbuf.NewBuffer(n)` — an empty buffer of
capacity `n`. -/
def circbufNew (n : Nat) : BoundedBuffer := ⟨n, []⟩

/-- Modelled from the spec: accept one byte, discarding the oldest byte
first when the capacity would be exceeded. -/
def bbWriteByte (b : BoundedBuffer) (x : Nat) : BoundedBuffer :=
  if b.data.length < b.size then ⟨b.size, b.data ++ [x]⟩
  else ⟨b.size, (b.data ++ [x]).drop (b.data.length + 1 - b.size)⟩

/-- Modelled from the spec: a `Write` call — successive byte writes, never
failing (the second component is the error result of the Go `Write`
signature, always absent). -/
def bbWrite (b : BoundedBuffer) (xs : List Nat) : BoundedBuffer × Option String :=
  (xs.foldl bbWriteByte b, none)

/-- The bytes retained for the final diagnostic message after the whole
output stream has been teed into the bounded buffer (part_000 line 159). -/
def bufContents (stream : List Nat) : List Nat :=
  (bbWrite (circbufNew maxBufSize) stream).1.data

/-- Modelled from the spec: the Line Splitter (section 4.2), the external
github.com/mitchellh/go-linereader library used by `copyOutput`
(part_000 line 204), not part of this repository. A streaming reader:
characters accumulate into `pending` until a newline terminator emits the
accumulated line; at end of stream a non-empty partial line is flushed
(the spec's recommended flush-on-EOF policy). -/
def lineReader : List Char → List Char → List (List Char)
  | pending, [] => if pending = [] then [] else [pending.reverse]
  | pending, c :: rest =>
    if c = '\n' then pending.reverse :: lineReader [] rest
    else lineReader (c :: pending) rest

/-- Declarative line decomposition used to state what the sink must
receive: split on newline characters. -/
def splitNL : List Char → List (List Char)
  | [] => [[]]
  | c :: rest =>
    if c = '\n' then [] :: splitNL rest
    else (splitNL rest).modifyHead (fun l => c :: l)

/-- Declarative line-split of a raw stream: newline-separated segments,
without a spurious empty final line when the stream ends in a terminator,
and no lines at all for an empty stream. -/
def lineSplit (s : List Char) : List (List Char) :=
  if s = [] then []
  else if s.getLast? = some '\n' then (splitNL s).dropLast
  else splitNL s

/-- Lines 202–208 of part_000: `copyOutput` forwards every line produced
by the line reader to the reporting sink `o.Output`, in order; its value
here is the ordered transcript the sink receives. -/
def copyOutput (r : List Char) : List (List Char) := lineReader [] r

/-- Which of the three select arms of part_000 lines 182–192 fires first:
the drain-completion channel `copyDoneCh`, the caller's own context
`ctx.Done()`, or the effective-timeout context `cmdCtx.Done()`. -/
inductive SelectEvent where
  | copyDone
  | ctxDone
  | cmdCtxDone
  deriving DecidableEq, Repr

/-- OS-visible effects of one `applyFn` invocation, in program order. -/
inductive Effect where
  | pipeAllocated
  | uiOutput (line : String)
  | spawned
  | pwClosed
  | getpgid (pid : Int)
  | kill (target : Int) (signal : Int)
  deriving DecidableEq, Repr

/-- The oracle for one invocation: everything the ambient OS and scheduler
decide — `os.Getenv(MAX_TIMEOUT)`, whether `os.Pipe`, `cmd.Start` and
`cmd.Wait` fail, the bytes the command writes to the pipe, which select
arm fires, the child's pid, and the `syscall.Getpgid` result. -/
structure World where
  goos : String
  maxTimeoutEnv : String
  pipeErr : Option String
  startErr : Option String
  waitErr : Option String
  outputRaw : List Nat
  selectEvent : SelectEvent
  pid : Int
  pgidLookup : Option Int
  deriving DecidableEq, Repr

/-- Bytes rendered into a diagnostic string (`%s` on a byte slice). -/
def bytesToString (bs : List Nat) : String := String.mk (bs.map Char.ofNat)

/-- Line 166 of part_000: the informational line echoing the resolved
argument vector (Go `%q` on a string slice, escaping elided). -/
def executingMessage (args : List String) : String :=
  "Executing: [" ++ String.intercalate " " (args.map (fun a => "\x22" ++ a ++ "\x22")) ++ "]"

/-- Lines 194–197 of part_000: the failure message embedding the original
command text, the underlying error, and the captured output tail. -/
def runErrorMessage (command err : String) (out : List Nat) : String :=
  "Error running command '" ++ command ++ "': " ++ err ++ ". Output: " ++ bytesToString out

/-- The result of one `applyFn` call: the nil return, a returned error, or
a Go runtime panic (which never reaches the error return). -/
inductive ApplyResult where
  | ok
  | err (msg : String)
  | panic (msg : String)
  deriving DecidableEq, Repr

def isErrResult : ApplyResult → Bool
  | ApplyResult.err _ => true
  | _ => false

def isPanicResult : ApplyResult → Bool
  | ApplyResult.panic _ => true
  | _ => false

/-- Lines 182–192 of part_000: the effects of the select. Only the
`cmdCtx.Done()` arm acts: on a non-Windows target it looks up the process
group of `cmd.Process.Pid` and, when the lookup succeeds, sends signal 15
to the whole group (`syscall.Kill(-pgid, 15)`). If `cmd.Start` had failed,
`cmd.Process` is nil and the `cmd.Process.Pid` dereference panics. The
other two arms do nothing. -/
def selectEffects (goos : String) (ev : SelectEvent) (started : Bool)
    (pid : Int) (pgidLookup : Option Int) : List Effect × Option String :=
  match ev with
  | SelectEvent.copyDone => ([], none)
  | SelectEvent.ctxDone => ([], none)
  | SelectEvent.cmdCtxDone =>
    if goos = "windows" then ([], none)
    else if started then
      match pgidLookup with
      | some pgid => ([Effect.getpgid pid, Effect.kill (-pgid) 15], none)
      | none => ([Effect.getpgid pid], none)
    else ([], some "runtime error: invalid memory address or nil pointer dereference")

/-- Lines 122–199 of part_000, after configuration succeeded: allocate the
pipe, create `cmdCtx = context.WithTimeout(Background, timeout·1s)` —
whose deadline is already expired when `timeout ≤ 0`, making `cmd.Start`
return the context error without spawning — start the drain goroutine,
echo the argument vector, run `cmd.Start`/`cmd.Wait`, close the pipe's
write end, run the final select, and build the outcome from the
start/wait error. -/
def runPhase (cfg : ProvConfig) (w : World) (timeout : Int) : ApplyResult × List Effect :=
  let execMsg := Effect.uiOutput (executingMessage (buildCmdArgs w.goos cfg.interpreter cfg.command))
  if timeout ≤ 0 then
    ((match (selectEffects w.goos w.selectEvent false w.pid w.pgidLookup).2 with
      | some p => ApplyResult.panic p
      | none => ApplyResult.err (runErrorMessage cfg.command "context deadline exceeded" [])),
     [Effect.pipeAllocated, execMsg, Effect.pwClosed] ++
       (selectEffects w.goos w.selectEvent false w.pid w.pgidLookup).1)
  else
    match w.startErr with
    | some e =>
      ((match (selectEffects w.goos w.selectEvent false w.pid w.pgidLookup).2 with
        | some p => ApplyResult.panic p
        | none => ApplyResult.err (runErrorMessage cfg.command e [])),
       [Effect.pipeAllocated, execMsg, Effect.pwClosed] ++
         (selectEffects w.goos w.selectEvent false w.pid w.pgidLookup).1)
    | none =>
      ((match w.waitErr with
        | some e => ApplyResult.err (runErrorMessage cfg.command e (bufContents w.outputRaw))
        | none => ApplyResult.ok),
       [Effect.pipeAllocated, execMsg, Effect.spawned, Effect.pwClosed] ++
         (selectEffects w.goos w.selectEvent true w.pid w.pgidLookup).1)

/-- Lines 61–199 of part_000: the whole `applyFn` — reject an empty
command, build the environment entries (panicking on a non-string value),
parse and apply the `MAX_TIMEOUT` ceiling, allocate the pipe, then run the
command. The second component is the ordered trace of OS-visible
effects. -/
def applyFn (cfg : ProvConfig) (w : World) : ApplyResult × List Effect :=
  if cfg.command = "" then
    (ApplyResult.err "local-exec provisioner command must be a non-empty string", [])
  else
    match buildEnv cfg.environment with
    | Except.error p => (ApplyResult.panic p, [])
    | Except.ok _ =>
      match computeTimeout cfg.timeout w.maxTimeoutEnv with
      | Except.error e => (ApplyResult.err e, [])
      | Except.ok timeout =>
        match w.pipeErr with
        | some e => (ApplyResult.err ("failed to initialize pipe for output: " ++ e), [])
        | none => runPhase cfg w timeout

/-- Number of kill signals in a trace. -/
def countKills : List Effect → Nat
  | [] => 0
  | Effect.kill _ _ :: t => countKills t + 1
  | _ :: t => countKills t

/-- Number of process-group lookups in a trace. -/
def countGetpgid : List Effect → Nat
  | [] => 0
  | Effect.getpgid _ :: t => countGetpgid t + 1
  | _ :: t => countGetpgid t

def isSpawn : Effect → Bool
  | Effect.spawned => true
  | _ => false

def isPgidCapture : Effect → Bool
  | Effect.getpgid _ => true
  | _ => false

/-- Whether every spawn in the trace is immediately followed by a
process-group-id capture. -/
def pgidCapturedRightAfterSpawn (tr : List Effect) : Bool :=
  (tr.zip (tr.drop 1)).all (fun p => !(isSpawn p.1) || isPgidCapture p.2)

/-- `needle` occurs contiguously inside `hay`. -/
def occursIn (needle hay : List Char) : Prop := ∃ a b, hay = a ++ needle ++ b

/-- Whether an `strconv.Atoi` result is a parse failure. -/
def isErrorExcept : Except String Int → Bool
  | Except.error _ => true
  | _ => false

/-! Concrete invocations used to instantiate the claims. -/

/-- A long-running command with no `timeout` configured. -/
def cfgNoTimeout : ProvConfig := ⟨"sleep 60", [], [], "", 0⟩

/-- Linux target, `MAX_TIMEOUT` unset, a healthy OS, drain completion
observed first. -/
def wNoTimeout : World := ⟨"linux", "", none, none, none, [], SelectEvent.copyDone, 1234, some 1234⟩

/-- A long-running command with `timeout = 100`. -/
def cfgLong : ProvConfig := ⟨"sleep 60", [], [], "", 100⟩

/-- Linux target where the caller's own context is cancelled while the
command runs: the select observes `ctx.Done()`, the process itself exits
cleanly. -/
def wCancel : World := ⟨"linux", "", none, none, none, [], SelectEvent.ctxDone, 77, some 77⟩

/-- Linux target where the effective-timeout context expires: the select
observes `cmdCtx.Done()`, `cmd.Wait` reports the kill, the group lookup
returns 88 for pid 77, and the bytes `hi` were captured. -/
def wTimeoutFire : World := ⟨"linux", "", none, none, some "signal: killed", [104, 105], SelectEvent.cmdCtxDone, 77, some 88⟩

/-- A configuration whose environment maps `A` to the non-string value 1. -/
def cfgBadEnv : ProvConfig := ⟨"echo hi", [("A", GoValue.num 1)], [], "", 0⟩

/-- Linux target with `MAX_TIMEOUT` set to the malformed value `abc`. -/
def wBadMax : World := ⟨"linux", "abc", none, none, none, [], SelectEvent.copyDone, 1, none⟩

/-- Empty command together with a non-string environment value. -/
def cfgEmptyBadEnv : ProvConfig := ⟨"", [("A", GoValue.num 1)], [], "", 0⟩

/-- A run-error scenario: the command exits non-zero having written
`exit status 1`-worthy output `hi`. -/
def wRunFail : World := ⟨"linux", "", none, none, some "exit status 1", [104, 105], SelectEvent.copyDone, 9, some 9⟩

/-! Claim theorems. -/

/-- Claim C1 (code bug exhibit): with requested timeout 0 and no
`MAX_TIMEOUT` ceiling the claim says the process runs with no deadline and
no deadline-triggered termination ever occurs. The code instead builds
`context.WithTimeout(Background(), 0)`, whose deadline is already expired,
so `cmd.Start` fails with the context error: the command is never spawned
at all, and the invocation fails with `context deadline exceeded` instead
of running to completion. -/
theorem c1_no_deadline_is_immediate_expiry :
    computeTimeout 0 "" = Except.ok 0 ∧
    applyFn cfgNoTimeout wNoTimeout =
      (ApplyResult.err "Error running command 'sleep 60': context deadline exceeded. Output: ",
       [Effect.pipeAllocated,
        Effect.uiOutput (executingMessage ["/bin/sh", "-c", "sleep 60"]),
        Effect.pwClosed]) ∧
    Effect.spawned ∉ (applyFn cfgNoTimeout wNoTimeout).2 := by
  refine ⟨rfl, rfl, ?_⟩
  decide

/-- Claim C2: the effective timeout is `min(requested, ceiling)` when both
are positive, the ceiling when the request is 0 and the ceiling positive,
and the request when the ceiling is 0 (the spec's `requested = 0` clause
overriding the `min` clause); in particular 10 capped by 5 gives 5, 0
capped by 5 gives 5, and 10 capped by 0 gives 10, also through the
`MAX_TIMEOUT` string parse. -/
theorem c2_effective_timeout (r c : Int) (hr : 0 ≤ r) (hc : 0 ≤ c) :
    ((0 < r ∧ 0 < c) → capTimeout r c = min r c) ∧
    ((r = 0 ∧ 0 < c) → capTimeout r c = c) ∧
    (c = 0 → capTimeout r c = r) ∧
    computeTimeout 10 "5" = Except.ok 5 ∧
    computeTimeout 0 "5" = Except.ok 5 ∧
    computeTimeout 10 "0" = Except.ok 10 := by
  refine ⟨?_, ?_, ?_, rfl, rfl, rfl⟩
  · rintro ⟨hrp, hcp⟩
    simp only [capTimeout, min_def]
    split_ifs <;> omega
  · rintro ⟨hr0, hcp⟩
    simp only [capTimeout]
    split_ifs <;> omega
  · intro hc0
    simp only [capTimeout]
    split_ifs <;> omega

theorem c2_effective_timeout_witness :
    0 ≤ (10 : Int) ∧ 0 ≤ (5 : Int) ∧
    (((0 : Int) < 10 ∧ (0 : Int) < 5) → capTimeout 10 5 = min 10 5) :=
  ⟨by decide, by decide, (c2_effective_timeout 10 5 (by decide) (by decide)).1⟩

/-- Claim C3 (counterexample): cancellation of the caller's own context is
claimed to behave like timeout expiry — group-wide SIGTERM and a Failure
outcome. On the invocation `cfgLong`/`wCancel`, where the select observes
`ctx.Done()`, the code sends no signal at all (the caller-cancellation arm
is empty, and the process is bound only to the timeout context) and the
outcome is Success. -/
theorem c3_caller_cancel_counterexample :
    (applyFn cfgLong wCancel).1 = ApplyResult.ok ∧
    countKills (applyFn cfgLong wCancel).2 = 0 ∧
    countGetpgid (applyFn cfgLong wCancel).2 = 0 ∧
    (applyFn cfgLong wCancel).2 =
      [Effect.pipeAllocated,
       Effect.uiOutput (executingMessage ["/bin/sh", "-c", "sleep 60"]),
       Effect.spawned, Effect.pwClosed] := by
  refine ⟨rfl, rfl, rfl, rfl⟩

/-- Claim C4 (counterexample): the process-group id is claimed to be
captured exactly once immediately after spawn. On the timeout-expiry
invocation `cfgLong`/`wTimeoutFire` the trace shows the capture
(`syscall.Getpgid`) happening only inside the timeout select arm, after
`cmd.Wait` returned and the pipe write end was closed — not immediately
after the spawn. -/
theorem c4_pgid_capture_counterexample :
    (applyFn cfgLong wTimeoutFire).2 =
      [Effect.pipeAllocated,
       Effect.uiOutput (executingMessage ["/bin/sh", "-c", "sleep 60"]),
       Effect.spawned, Effect.pwClosed, Effect.getpgid 77, Effect.kill (-88) 15] ∧
    pgidCapturedRightAfterSpawn (applyFn cfgLong wTimeoutFire).2 = false ∧
    countGetpgid (applyFn cfgLong wTimeoutFire).2 = 1 := by
  refine ⟨rfl, ?_, rfl⟩
  decide

/-- Claim C5 (counterexample): the claim demands that every invocation
with a set-but-malformed `MAX_TIMEOUT` returns a configuration error. The
invocation `cfgBadEnv`/`wBadMax` is in that class (`MAX_TIMEOUT = abc`),
yet the call panics on the unchecked environment type assertion before the
ceiling is ever parsed — a panic, not a returned configuration error. -/
theorem c5_config_error_counterexample :
    wBadMax.maxTimeoutEnv = "abc" ∧
    isErrorExcept (atoi wBadMax.maxTimeoutEnv) = true ∧
    (applyFn cfgBadEnv wBadMax).1 =
      ApplyResult.panic "interface conversion: interface \x7b\x7d is not string" ∧
    isErrResult (applyFn cfgBadEnv wBadMax).1 = false := by
  refine ⟨rfl, rfl, rfl, rfl⟩

/-- Claim C10 (counterexample): the claim says every invocation whose
environment holds a non-string value panics and never takes the error
branch. With an empty command as well, the empty-command check runs first:
the call returns the configuration error and never reaches the assertion,
so it does not panic. -/
theorem c10_panic_counterexample :
    (applyFn cfgEmptyBadEnv wBadMax).1 =
      ApplyResult.err "local-exec provisioner command must be a non-empty string" ∧
    isPanicResult (applyFn cfgEmptyBadEnv wBadMax).1 = false := by
  refine ⟨rfl, rfl⟩

/-! Helper lemmas about the select arms and trace shapes. -/

theorem selectEffects_ctxDone (g : String) (st : Bool) (pid : Int) (lk : Option Int) :
    selectEffects g SelectEvent.ctxDone st pid lk = ([], none) := rfl

theorem selectEffects_getpgid_mem {g : String} {ev : SelectEvent} {st : Bool}
    {pid p : Int} {lk : Option Int}
    (h : Effect.getpgid p ∈ (selectEffects g ev st pid lk).1) :
    ev = SelectEvent.cmdCtxDone ∧ g ≠ "windows" ∧ st = true ∧ p = pid := by
  cases ev with
  | copyDone => simp [selectEffects] at h
  | ctxDone => simp [selectEffects] at h
  | cmdCtxDone =>
    by_cases hg : g = "windows"
    · simp [selectEffects, hg] at h
    · cases st with
      | false => simp [selectEffects, hg] at h
      | true =>
        cases lk with
        | none =>
          simp [selectEffects, hg] at h
          exact ⟨rfl, hg, rfl, h⟩
        | some pg =>
          simp [selectEffects, hg] at h
          exact ⟨rfl, hg, rfl, h⟩

theorem selectEffects_kill_mem {g : String} {ev : SelectEvent} {st : Bool}
    {pid t s : Int} {lk : Option Int}
    (h : Effect.kill t s ∈ (selectEffects g ev st pid lk).1) :
    ev = SelectEvent.cmdCtxDone ∧ g ≠ "windows" ∧ st = true ∧
      s = 15 ∧ lk = some (-t) := by
  cases ev with
  | copyDone => simp [selectEffects] at h
  | ctxDone => simp [selectEffects] at h
  | cmdCtxDone =>
    by_cases hg : g = "windows"
    · simp [selectEffects, hg] at h
    · cases st with
      | false => simp [selectEffects, hg] at h
      | true =>
        cases lk with
        | none => simp [selectEffects, hg] at h
        | some pg =>
          simp [selectEffects, hg] at h
          refine ⟨rfl, hg, rfl, h.2, ?_⟩
          rw [h.1]
          simp

/-- Every trace of `applyFn` is either empty (configuration failure) or a
fixed prefix followed by the effects of one select arm. -/
theorem applyFn_trace_cases (cfg : ProvConfig) (w : World) :
    (applyFn cfg w).2 = [] ∨
    (∃ m, (applyFn cfg w).2 =
      [Effect.pipeAllocated, Effect.uiOutput m, Effect.pwClosed] ++
        (selectEffects w.goos w.selectEvent false w.pid w.pgidLookup).1) ∨
    (∃ m, (applyFn cfg w).2 =
      [Effect.pipeAllocated, Effect.uiOutput m, Effect.spawned, Effect.pwClosed] ++
        (selectEffects w.goos w.selectEvent true w.pid w.pgidLookup).1) := by
  by_cases hc : cfg.command = ""
  · simp [applyFn, hc]
  · cases hbe : buildEnv cfg.environment with
    | error p => simp [applyFn, hc, hbe]
    | ok es =>
      cases hct : computeTimeout cfg.timeout w.maxTimeoutEnv with
      | error e => simp [applyFn, hc, hbe, hct]
      | ok T =>
        cases hp : w.pipeErr with
        | some e => simp [applyFn, hc, hbe, hct, hp]
        | none =>
          by_cases ht : T ≤ 0
          · simp only [applyFn, runPhase, if_neg hc, hbe, hct, hp, if_pos ht]
            right; left
            exact ⟨_, rfl⟩
          · cases hs : w.startErr with
            | some e =>
              simp only [applyFn, runPhase, if_neg hc, hbe, hct, hp, if_neg ht, hs]
              right; left
              exact ⟨_, rfl⟩
            | none =>
              simp only [applyFn, runPhase, if_neg hc, hbe, hct, hp, if_neg ht, hs]
              right; right
              exact ⟨_, rfl⟩

theorem countKills_append (a b : List Effect) :
    countKills (a ++ b) = countKills a + countKills b := by
  induction a with
  | nil => simp [countKills]
  | cons e t ih =>
    cases e <;> simp [countKills, ih] <;> omega

theorem countGetpgid_append (a b : List Effect) :
    countGetpgid (a ++ b) = countGetpgid a + countGetpgid b := by
  induction a with
  | nil => simp [countGetpgid]
  | cons e t ih =>
    cases e <;> simp [countGetpgid, ih] <;> omega

/-- Claim C3 (amended): cancellation of the caller's own context never
triggers the group-wide terminate — the `ctx.Done()` select arm issues no
`Getpgid` and no `Kill`, on any invocation; only the effective-timeout
context's arm does. -/
theorem c3_caller_cancel_no_group_kill (cfg : ProvConfig) (w : World)
    (h : w.selectEvent = SelectEvent.ctxDone) :
    countKills (applyFn cfg w).2 = 0 ∧ countGetpgid (applyFn cfg w).2 = 0 := by
  rcases applyFn_trace_cases cfg w with htr | ⟨m, htr⟩ | ⟨m, htr⟩ <;>
    rw [htr] <;>
    simp [h, selectEffects_ctxDone, countKills_append, countGetpgid_append,
      countKills, countGetpgid]

theorem c3_caller_cancel_no_group_kill_witness :
    wCancel.selectEvent = SelectEvent.ctxDone ∧
    (countKills (applyFn cfgLong wCancel).2 = 0 ∧
     countGetpgid (applyFn cfgLong wCancel).2 = 0) :=
  ⟨rfl, c3_caller_cancel_no_group_kill cfgLong wCancel rfl⟩

/-- Claim C4 (amended): the process-group id used for group-wide
termination is obtained by a `Getpgid` lookup on the process's pid at
termination time — it appears only when the effective-timeout arm fires on
a non-Windows target with a started process — and the group kill targets
exactly the looked-up value (`Kill(-pgid, 15)`), the only handle ever
used. It is not captured at spawn. -/
theorem c4_pgid_lookup_at_termination (cfg : ProvConfig) (w : World) :
    (∀ p : Int, Effect.getpgid p ∈ (applyFn cfg w).2 →
      w.selectEvent = SelectEvent.cmdCtxDone ∧ w.goos ≠ "windows" ∧ p = w.pid) ∧
    (∀ t s : Int, Effect.kill t s ∈ (applyFn cfg w).2 →
      w.selectEvent = SelectEvent.cmdCtxDone ∧ w.goos ≠ "windows" ∧
        s = 15 ∧ w.pgidLookup = some (-t)) := by
  constructor
  · intro p hp
    rcases applyFn_trace_cases cfg w with htr | ⟨m, htr⟩ | ⟨m, htr⟩
    · rw [htr] at hp
      simp at hp
    · rw [htr] at hp
      rcases List.mem_append.1 hp with h | h
      · simp at h
      · obtain ⟨hev, hg, _, hpid⟩ := selectEffects_getpgid_mem h
        exact ⟨hev, hg, hpid⟩
    · rw [htr] at hp
      rcases List.mem_append.1 hp with h | h
      · simp at h
      · obtain ⟨hev, hg, _, hpid⟩ := selectEffects_getpgid_mem h
        exact ⟨hev, hg, hpid⟩
  · intro t s hk
    rcases applyFn_trace_cases cfg w with htr | ⟨m, htr⟩ | ⟨m, htr⟩
    · rw [htr] at hk
      simp at hk
    · rw [htr] at hk
      rcases List.mem_append.1 hk with h | h
      · simp at h
      · obtain ⟨hev, hg, _, hs, hlk⟩ := selectEffects_kill_mem h
        exact ⟨hev, hg, hs, hlk⟩
    · rw [htr] at hk
      rcases List.mem_append.1 hk with h | h
      · simp at h
      · obtain ⟨hev, hg, _, hs, hlk⟩ := selectEffects_kill_mem h
        exact ⟨hev, hg, hs, hlk⟩

theorem c4_pgid_lookup_at_termination_witness :
    Effect.getpgid 77 ∈ (applyFn cfgLong wTimeoutFire).2 ∧
    (wTimeoutFire.selectEvent = SelectEvent.cmdCtxDone ∧
     wTimeoutFire.goos ≠ "windows" ∧ (77 : Int) = wTimeoutFire.pid) :=
  ⟨by decide, (c4_pgid_lookup_at_termination cfgLong wTimeoutFire).1 77 (by decide)⟩

theorem string_length_ne_zero {s : String} (h : s ≠ "") : s.length ≠ 0 := by
  intro h0
  apply h
  cases s with
  | mk d =>
    rw [String.length_mk, List.length_eq_zero] at h0
    rw [h0]

/-- An environment whose values all pass the string assertion builds
successfully. -/
theorem buildEnv_ok : ∀ env : List (String × GoValue),
    (∀ kv ∈ env, isStringVal kv.2 = true) → ∃ es, buildEnv env = Except.ok es := by
  intro env h
  induction env with
  | nil => exact ⟨[], rfl⟩
  | cons kv rest ih =>
    obtain ⟨k, v⟩ := kv
    cases v with
    | str s =>
      obtain ⟨es, hes⟩ := ih (fun kv hkv => h kv (List.mem_cons_of_mem _ hkv))
      exact ⟨(k ++ "=" ++ s) :: es, by simp [buildEnv, hes]⟩
    | num n => exact absurd (h (k, GoValue.num n) (List.mem_cons_self _ _)) (by simp [isStringVal])
    | boolean b => exact absurd (h (k, GoValue.boolean b) (List.mem_cons_self _ _)) (by simp [isStringVal])

/-- An environment holding any non-string value hits the unchecked type
assertion. -/
theorem buildEnv_error : ∀ env : List (String × GoValue),
    (∃ k v, (k, v) ∈ env ∧ isStringVal v = false) → ∃ m, buildEnv env = Except.error m := by
  intro env h
  induction env with
  | nil =>
    obtain ⟨k, v, hm, _⟩ := h
    exact absurd hm (List.not_mem_nil _)
  | cons kv rest ih =>
    obtain ⟨k, v, hm, hv⟩ := h
    obtain ⟨k0, v0⟩ := kv
    cases hv0 : v0 with
    | str s =>
      have hrest : ∃ k v, (k, v) ∈ rest ∧ isStringVal v = false := by
        rcases List.mem_cons.1 hm with heq | hmem
        · exfalso
          rw [hv0] at heq
          injection heq with h1 h2
          rw [h2] at hv
          simp [isStringVal] at hv
        · exact ⟨k, v, hmem, hv⟩
      obtain ⟨m, hme⟩ := ih hrest
      exact ⟨m, by simp [buildEnv, hme]⟩
    | num n => exact ⟨"interface conversion: interface \x7b\x7d is not string", by simp [buildEnv]⟩
    | boolean b => exact ⟨"interface conversion: interface \x7b\x7d is not string", by simp [buildEnv]⟩

/-- Claim C5 (amended): the empty-command check rejects with a
configuration error before any effect, unconditionally; a set-but-malformed
`MAX_TIMEOUT` is likewise rejected before the pipe is allocated or a
process spawned — provided every environment value is a string, since
otherwise the unchecked environment type assertion panics first. -/
theorem c5_config_errors_before_side_effects (cfg : ProvConfig) (w : World) :
    (cfg.command = "" →
      applyFn cfg w =
        (ApplyResult.err "local-exec provisioner command must be a non-empty string", [])) ∧
    ((∀ kv ∈ cfg.environment, isStringVal kv.2 = true) →
      w.maxTimeoutEnv ≠ "" →
      isErrorExcept (atoi w.maxTimeoutEnv) = true →
      isErrResult (applyFn cfg w).1 = true ∧ (applyFn cfg w).2 = []) := by
  constructor
  · intro hc
    simp [applyFn, hc]
  · intro henv hset hbadf
    by_cases hc : cfg.command = ""
    · simp [applyFn, hc, isErrResult]
    · obtain ⟨es, hes⟩ := buildEnv_ok cfg.environment henv
      cases hat : atoi w.maxTimeoutEnv with
      | ok v => rw [hat] at hbadf; simp [isErrorExcept] at hbadf
      | error e =>
        have hct : computeTimeout cfg.timeout w.maxTimeoutEnv = Except.error e := by
          unfold computeTimeout
          rw [if_pos (string_length_ne_zero hset), hat]
        simp [applyFn, hc, hes, hct, isErrResult]

theorem c5_config_errors_before_side_effects_witness :
    (∀ kv ∈ cfgLong.environment, isStringVal kv.2 = true) ∧
    wBadMax.maxTimeoutEnv ≠ "" ∧
    isErrorExcept (atoi wBadMax.maxTimeoutEnv) = true ∧
    (isErrResult (applyFn cfgLong wBadMax).1 = true ∧ (applyFn cfgLong wBadMax).2 = []) :=
  ⟨by simp [cfgLong], by decide, by decide,
   (c5_config_errors_before_side_effects cfgLong wBadMax).2 (by simp [cfgLong]) (by decide) (by decide)⟩

/-- Claim C6: a command that starts successfully and exits with status 0
before its deadline yields the nil (Success) outcome — for every select
arm, every platform, and every amount of output the command produced. -/
theorem c6_exit_zero_success (cfg : ProvConfig) (w : World) (es : List String) (T : Int)
    (hcmd : cfg.command ≠ "")
    (henv : buildEnv cfg.environment = Except.ok es)
    (hT : computeTimeout cfg.timeout w.maxTimeoutEnv = Except.ok T)
    (hTpos : 0 < T)
    (hpipe : w.pipeErr = none)
    (hstart : w.startErr = none)
    (hwait : w.waitErr = none) :
    (applyFn cfg w).1 = ApplyResult.ok := by
  simp [applyFn, runPhase, hcmd, henv, hT, hpipe, hstart, hwait, if_neg (by omega : ¬T ≤ 0)]

theorem c6_exit_zero_success_witness :
    cfgLong.command ≠ "" ∧ (0 : Int) < 100 ∧
    (applyFn cfgLong
      ⟨"linux", "", none, none, none, List.replicate (10 * maxBufSize) 104,
       SelectEvent.copyDone, 9, some 9⟩).1 = ApplyResult.ok :=
  ⟨by decide, by decide,
   c6_exit_zero_success cfgLong
     ⟨"linux", "", none, none, none, List.replicate (10 * maxBufSize) 104,
      SelectEvent.copyDone, 9, some 9⟩
     [] 100 (by decide) rfl rfl (by decide) rfl rfl rfl⟩

/-- Claim C10 (amended): for every invocation with a non-empty command
whose environment holds a non-string value, `applyFn` panics on the
unchecked `.(string)` assertion and the error return branch is never
taken. (With an empty command the empty-command configuration error fires
first — see the counterexample.) -/
theorem c10_env_type_assertion_panics (cfg : ProvConfig) (w : World)
    (hcmd : cfg.command ≠ "")
    (hbad : ∃ k v, (k, v) ∈ cfg.environment ∧ isStringVal v = false) :
    isPanicResult (applyFn cfg w).1 = true ∧ isErrResult (applyFn cfg w).1 = false := by
  obtain ⟨m, hme⟩ := buildEnv_error cfg.environment hbad
  simp [applyFn, hcmd, hme, isPanicResult, isErrResult]

theorem c10_env_type_assertion_panics_witness :
    cfgBadEnv.command ≠ "" ∧
    (isPanicResult (applyFn cfgBadEnv wBadMax).1 = true ∧
     isErrResult (applyFn cfgBadEnv wBadMax).1 = false) :=
  ⟨by decide,
   c10_env_type_assertion_panics cfgBadEnv wBadMax (by decide)
     ⟨"A", GoValue.num 1, by simp [cfgBadEnv], rfl⟩⟩

/-- The failure message contains its three ingredients as contiguous
substrings. -/
theorem runErrorMessage_occurs (c e : String) (tl : List Nat) :
    occursIn c.data (runErrorMessage c e tl).data ∧
    occursIn e.data (runErrorMessage c e tl).data ∧
    occursIn (bytesToString tl).data (runErrorMessage c e tl).data := by
  refine
    ⟨⟨"Error running command '".data, ("': " ++ e ++ ". Output: " ++ bytesToString tl).data, ?_⟩,
     ⟨("Error running command '" ++ c ++ "': ").data, (". Output: " ++ bytesToString tl).data, ?_⟩,
     ⟨("Error running command '" ++ c ++ "': " ++ e ++ ". Output: ").data, [], ?_⟩⟩ <;>
  simp [runErrorMessage, String.data_append]

theorem selectEffects_started (g : String) (ev : SelectEvent) (pid : Int) (lk : Option Int) :
    (selectEffects g ev true pid lk).2 = none := by
  cases ev with
  | copyDone => rfl
  | ctxDone => rfl
  | cmdCtxDone =>
    by_cases hg : g = "windows"
    · simp [selectEffects, hg]
    · cases lk <;> simp [selectEffects, hg]

/-- Claim C8: every invocation that fails with a start error or a run
error — and actually returns (the start-failure/timeout race can instead
hit the nil-pointer panic, excluded here) — returns an error whose message
embeds the original command text, the underlying OS-level reason, and the
captured (possibly truncated) output tail: nothing for a start error, the
bounded-buffer contents for a run error. -/
theorem c8_failure_message_contents (cfg : ProvConfig) (w : World) (es : List String)
    (T : Int) (e : String)
    (hcmd : cfg.command ≠ "")
    (henv : buildEnv cfg.environment = Except.ok es)
    (hT : computeTimeout cfg.timeout w.maxTimeoutEnv = Except.ok T)
    (hTpos : 0 < T)
    (hpipe : w.pipeErr = none)
    (herr : w.startErr = some e ∨ (w.startErr = none ∧ w.waitErr = some e))
    (hnopanic : isPanicResult (applyFn cfg w).1 = false) :
    ∃ tl, (applyFn cfg w).1 = ApplyResult.err (runErrorMessage cfg.command e tl) ∧
      (w.startErr = some e → tl = []) ∧
      (w.startErr = none → tl = bufContents w.outputRaw) ∧
      occursIn cfg.command.data (runErrorMessage cfg.command e tl).data ∧
      occursIn e.data (runErrorMessage cfg.command e tl).data ∧
      occursIn (bytesToString tl).data (runErrorMessage cfg.command e tl).data := by
  rcases herr with hs | ⟨hs, hw⟩
  · cases hsel : (selectEffects w.goos w.selectEvent false w.pid w.pgidLookup).2 with
    | some p =>
      exfalso
      have hres : (applyFn cfg w).1 = ApplyResult.panic p := by
        simp [applyFn, runPhase, hcmd, henv, hT, hpipe, hs, if_neg (by omega : ¬T ≤ 0), hsel]
      rw [hres] at hnopanic
      simp [isPanicResult] at hnopanic
    | none =>
      refine ⟨[], ?_, fun _ => rfl, ?_,
        (runErrorMessage_occurs cfg.command e []).1,
        (runErrorMessage_occurs cfg.command e []).2.1,
        (runErrorMessage_occurs cfg.command e []).2.2⟩
      · simp [applyFn, runPhase, hcmd, henv, hT, hpipe, hs, if_neg (by omega : ¬T ≤ 0), hsel]
      · intro hn
        rw [hn] at hs
        cases hs
  · refine ⟨bufContents w.outputRaw, ?_, ?_, fun _ => rfl,
      (runErrorMessage_occurs cfg.command e (bufContents w.outputRaw)).1,
      (runErrorMessage_occurs cfg.command e (bufContents w.outputRaw)).2.1,
      (runErrorMessage_occurs cfg.command e (bufContents w.outputRaw)).2.2⟩
    · simp [applyFn, runPhase, hcmd, henv, hT, hpipe, hs, hw, if_neg (by omega : ¬T ≤ 0)]
    · intro hsome
      rw [hsome] at hs
      cases hs

theorem c8_failure_message_contents_witness :
    cfgLong.command ≠ "" ∧ (0 : Int) < 100 ∧
    (wRunFail.startErr = some "exit status 1" ∨
      (wRunFail.startErr = none ∧ wRunFail.waitErr = some "exit status 1")) ∧
    (∃ tl, (applyFn cfgLong wRunFail).1 =
        ApplyResult.err (runErrorMessage cfgLong.command "exit status 1" tl) ∧
      (wRunFail.startErr = some "exit status 1" → tl = []) ∧
      (wRunFail.startErr = none → tl = bufContents wRunFail.outputRaw) ∧
      occursIn cfgLong.command.data (runErrorMessage cfgLong.command "exit status 1" tl).data ∧
      occursIn "exit status 1".data (runErrorMessage cfgLong.command "exit status 1" tl).data ∧
      occursIn (bytesToString tl).data (runErrorMessage cfgLong.command "exit status 1" tl).data) :=
  ⟨by decide, by decide, Or.inr ⟨rfl, rfl⟩,
   c8_failure_message_contents cfgLong wRunFail [] 100 "exit status 1"
     (by decide) rfl rfl (by decide) rfl (Or.inr ⟨rfl, rfl⟩) rfl⟩

/-! Bounded-buffer lemmas for claim C7. -/

theorem tailN_of_le {l : List α} {n : Nat} (h : l.length ≤ n) : tailN n l = l := by
  unfold tailN
  rw [Nat.sub_eq_zero_of_le h, List.drop_zero]

theorem length_tailN (n : Nat) (l : List α) : (tailN n l).length = min n l.length := by
  unfold tailN
  rw [List.length_drop]
  omega

theorem tailN_zero (l : List α) : tailN 0 l = [] := by
  unfold tailN
  rw [Nat.sub_zero, List.drop_length]

/-- One byte through the bounded buffer preserves the invariant: the data
retained after the bytes `L` have passed is exactly the `cap`-suffix of
`L`. -/
theorem bbWriteByte_tailN {cap : Nat} {b : BoundedBuffer} {L : List Nat} (x : Nat)
    (hsz : b.size = cap) (hd : b.data = tailN cap L) :
    (bbWriteByte b x).size = cap ∧ (bbWriteByte b x).data = tailN cap (L ++ [x]) := by
  have hlen : b.data.length = min cap L.length := by rw [hd, length_tailN]
  by_cases h : L.length < cap
  · have hfull : b.data.length < b.size := by rw [hlen, hsz]; omega
    have hdl : b.data = L := by rw [hd, tailN_of_le (by omega)]
    unfold bbWriteByte
    rw [if_pos hfull]
    refine ⟨hsz, ?_⟩
    rw [hdl, tailN_of_le (by simp; omega)]
  · push_neg at h
    have hlen' : b.data.length = cap := by omega
    have hnotlt : ¬b.data.length < b.size := by rw [hlen', hsz]; omega
    unfold bbWriteByte
    rw [if_neg hnotlt]
    refine ⟨hsz, ?_⟩
    rw [hsz, hlen', hd]
    have h1 : cap + 1 - cap = 1 := by omega
    rw [h1]
    by_cases hcap0 : cap = 0
    · subst hcap0
      rw [tailN_zero, tailN_zero]
      rfl
    · unfold tailN
      rw [List.drop_append_eq_append_drop, List.drop_drop, List.length_drop,
        List.drop_append_eq_append_drop, List.length_append]
      have e1 : L.length - (L.length - cap) = cap := by omega
      rw [e1]
      have e2 : 1 - cap = 0 := by omega
      rw [e2, List.drop_zero]
      have e3 : L.length + [x].length - cap - L.length = 0 := by simp; omega
      rw [e3, List.drop_zero]
      have e4 : L.length - cap + 1 = L.length + [x].length - cap := by simp; omega
      rw [e4]

/-- Folding a whole byte stream through the buffer keeps exactly the
`cap`-suffix of everything written so far. -/
theorem bbFold_tailN (cap : Nat) :
    ∀ (xs : List Nat) (b : BoundedBuffer) (L : List Nat),
      b.size = cap → b.data = tailN cap L →
      (xs.foldl bbWriteByte b).size = cap ∧
        (xs.foldl bbWriteByte b).data = tailN cap (L ++ xs) := by
  intro xs
  induction xs with
  | nil =>
    intro b L h1 h2
    constructor
    · simpa using h1
    · simpa using h2
  | cons x t ih =>
    intro b L h1 h2
    obtain ⟨hs, hd⟩ := bbWriteByte_tailN x h1 h2
    have := ih (bbWriteByte b x) (L ++ [x]) hs hd
    simpa [List.append_assoc] using this

/-- Writing chunk-by-chunk is writing the flattened stream byte-by-byte. -/
theorem bbWrite_chunks_flatten (chunks : List (List Nat)) :
    ∀ b : BoundedBuffer,
      chunks.foldl (fun b ch => (bbWrite b ch).1) b = chunks.flatten.foldl bbWriteByte b := by
  induction chunks with
  | nil => intro b; rfl
  | cons c t ih =>
    intro b
    simp only [List.foldl_cons, List.flatten_cons, List.foldl_append, bbWrite]
    exact ih _

/-- Claim C7: for every sequence of byte writes, writes never fail, the
buffer retains at most `maxBufSize` bytes, and the retained bytes are
exactly the most recent `maxBufSize`-worth of the total stream (oldest
discarded first). -/
theorem c7_bounded_buffer_retains_tail (chunks : List (List Nat)) :
    (∀ (b : BoundedBuffer) (xs : List Nat), (bbWrite b xs).2 = none) ∧
    (chunks.foldl (fun b ch => (bbWrite b ch).1) (circbufNew maxBufSize)).data.length ≤
      maxBufSize ∧
    (chunks.foldl (fun b ch => (bbWrite b ch).1) (circbufNew maxBufSize)).data =
      tailN maxBufSize chunks.flatten := by
  have hbase := (bbFold_tailN maxBufSize chunks.flatten (circbufNew maxBufSize) []
    rfl (by unfold tailN; rfl)).2
  rw [List.nil_append] at hbase
  rw [bbWrite_chunks_flatten]
  refine ⟨fun b xs => rfl, ?_, hbase⟩
  rw [hbase, length_tailN]
  omega

/-! Line-splitter lemmas for claim C9. -/

/-- Prepend pending characters onto the first line of a decomposition
(creating a line when there is none). -/
def consHead (p : List Char) (ls : List (List Char)) : List (List Char) :=
  if p = [] then ls
  else
    match ls with
    | [] => [p]
    | l :: t => (p ++ l) :: t

theorem consHead_nil_pending (ls : List (List Char)) : consHead [] ls = ls := by
  simp [consHead]

theorem consHead_cons_nil_line (p : List Char) (ls : List (List Char)) :
    consHead p ([] :: ls) = p :: ls := by
  by_cases hp : p = []
  · simp [consHead, hp]
  · simp [consHead, hp]

theorem consHead_append (p : List Char) (c : Char) (ls : List (List Char)) :
    consHead (p ++ [c]) ls = consHead p (consHead [c] ls) := by
  cases ls with
  | nil => by_cases hp : p = [] <;> simp [consHead, hp]
  | cons l t => by_cases hp : p = [] <;> simp [consHead, hp]

theorem consHead_of_ne_nil {ls : List (List Char)} (c : Char) (h : ls ≠ []) :
    consHead [c] ls = ls.modifyHead (fun x => c :: x) := by
  cases ls with
  | nil => exact absurd rfl h
  | cons l t => simp [consHead]

theorem splitNL_ne_nil (s : List Char) : splitNL s ≠ [] := by
  induction s with
  | nil => simp [splitNL]
  | cons c rest ih =>
    by_cases h : c = '\n'
    · simp [splitNL, h]
    · simp only [splitNL, if_neg h]
      cases hr : splitNL rest with
      | nil => exact absurd hr ih
      | cons l t => simp

theorem splitNL_cons (c : Char) (rest : List Char) :
    splitNL (c :: rest) =
      if c = '\n' then [] :: splitNL rest
      else (splitNL rest).modifyHead (fun l => c :: l) := rfl

theorem splitNL_length_ge_two :
    ∀ s : List Char, s.getLast? = some '\n' → 2 ≤ (splitNL s).length := by
  intro s
  induction s with
  | nil => intro h; simp at h
  | cons c rest ih =>
    intro h
    cases rest with
    | nil =>
      rw [List.getLast?_singleton] at h
      injection h with h
      subst h
      rw [splitNL_cons, if_pos rfl]
      simp [splitNL]
    | cons c2 rest2 =>
      rw [List.getLast?_cons_cons] at h
      have hs := ih h
      rw [splitNL_cons]
      by_cases hc : c = '\n'
      · rw [if_pos hc]
        simp only [List.length_cons]
        omega
      · rw [if_neg hc, List.length_modifyHead]
        exact hs

theorem dropLast_modifyHead (f : List Char → List Char) (l : List (List Char)) :
    (l.modifyHead f).dropLast = l.dropLast.modifyHead f := by
  cases l with
  | nil => rfl
  | cons a t =>
    cases t with
    | nil => rfl
    | cons b t2 =>
      rw [List.modifyHead_cons]
      rw [List.dropLast_cons_of_ne_nil (List.cons_ne_nil b t2)]
      rw [List.dropLast_cons_of_ne_nil (List.cons_ne_nil b t2)]
      rw [List.modifyHead_cons]

theorem lineSplit_cons_newline (rest : List Char) :
    lineSplit ('\n' :: rest) = [] :: lineSplit rest := by
  cases rest with
  | nil => decide
  | cons c2 rest2 =>
    have hsp : splitNL ('\n' :: c2 :: rest2) = [] :: splitNL (c2 :: rest2) := by
      rw [splitNL_cons, if_pos rfl]
    by_cases hend : (c2 :: rest2).getLast? = some '\n'
    · have hL : lineSplit ('\n' :: c2 :: rest2) = (splitNL ('\n' :: c2 :: rest2)).dropLast := by
        unfold lineSplit
        rw [if_neg (List.cons_ne_nil _ _)]
        rw [if_pos (by rw [List.getLast?_cons_cons]; exact hend)]
      have hR : lineSplit (c2 :: rest2) = (splitNL (c2 :: rest2)).dropLast := by
        unfold lineSplit
        rw [if_neg (List.cons_ne_nil _ _), if_pos hend]
      rw [hL, hR, hsp, List.dropLast_cons_of_ne_nil (splitNL_ne_nil _)]
    · have hL : lineSplit ('\n' :: c2 :: rest2) = splitNL ('\n' :: c2 :: rest2) := by
        unfold lineSplit
        rw [if_neg (List.cons_ne_nil _ _)]
        rw [if_neg (by rw [List.getLast?_cons_cons]; exact hend)]
      have hR : lineSplit (c2 :: rest2) = splitNL (c2 :: rest2) := by
        unfold lineSplit
        rw [if_neg (List.cons_ne_nil _ _), if_neg hend]
      rw [hL, hR, hsp]

theorem lineSplit_cons_other {c : Char} (rest : List Char) (hc : c ≠ '\n') :
    lineSplit (c :: rest) = consHead [c] (lineSplit rest) := by
  cases rest with
  | nil =>
    have h1 : lineSplit [c] = splitNL [c] := by
      unfold lineSplit
      rw [if_neg (List.cons_ne_nil _ _)]
      rw [if_neg (by rw [List.getLast?_singleton]; simp [hc])]
    rw [h1, splitNL_cons, if_neg hc]
    simp [splitNL, lineSplit, consHead]
  | cons c2 rest2 =>
    have hsp : splitNL (c :: c2 :: rest2) =
        (splitNL (c2 :: rest2)).modifyHead (fun l => c :: l) := by
      rw [splitNL_cons, if_neg hc]
    by_cases hend : (c2 :: rest2).getLast? = some '\n'
    · have hL : lineSplit (c :: c2 :: rest2) = (splitNL (c :: c2 :: rest2)).dropLast := by
        unfold lineSplit
        rw [if_neg (List.cons_ne_nil _ _)]
        rw [if_pos (by rw [List.getLast?_cons_cons]; exact hend)]
      have hR : lineSplit (c2 :: rest2) = (splitNL (c2 :: rest2)).dropLast := by
        unfold lineSplit
        rw [if_neg (List.cons_ne_nil _ _), if_pos hend]
      have hne : (splitNL (c2 :: rest2)).dropLast ≠ [] := by
        have h2 := splitNL_length_ge_two (c2 :: rest2) hend
        intro habs
        have h0 : ((splitNL (c2 :: rest2)).dropLast).length = 0 := by rw [habs]; rfl
        rw [List.length_dropLast] at h0
        omega
      rw [hL, hR, hsp, dropLast_modifyHead, consHead_of_ne_nil c hne]
    · have hL : lineSplit (c :: c2 :: rest2) = splitNL (c :: c2 :: rest2) := by
        unfold lineSplit
        rw [if_neg (List.cons_ne_nil _ _)]
        rw [if_neg (by rw [List.getLast?_cons_cons]; exact hend)]
      have hR : lineSplit (c2 :: rest2) = splitNL (c2 :: rest2) := by
        unfold lineSplit
        rw [if_neg (List.cons_ne_nil _ _), if_neg hend]
      rw [hL, hR, hsp, consHead_of_ne_nil c (splitNL_ne_nil _)]

/-- The streaming line reader agrees with the declarative split, up to the
pending partial line. -/
theorem lineReader_eq_consHead :
    ∀ s pending : List Char, lineReader pending s = consHead pending.reverse (lineSplit s) := by
  intro s
  induction s with
  | nil =>
    intro pending
    by_cases hp : pending = []
    · simp [lineReader, lineSplit, consHead, hp]
    · simp [lineReader, lineSplit, consHead, hp]
  | cons c rest ih =>
    intro pending
    by_cases hc : c = '\n'
    · subst hc
      have hstep : lineReader pending ('\n' :: rest) = pending.reverse :: lineReader [] rest := by
        simp [lineReader]
      rw [hstep, ih [], List.reverse_nil, consHead_nil_pending, lineSplit_cons_newline,
        consHead_cons_nil_line]
    · have hstep : lineReader pending (c :: rest) = lineReader (c :: pending) rest := by
        simp [lineReader, hc]
      rw [hstep, ih (c :: pending), List.reverse_cons, consHead_append,
        lineSplit_cons_other rest hc]

/-- Claim C9: every line written before the pipe's write end closes is
delivered to the reporting sink exactly once, in emission order — the
transcript collected by `copyOutput` equals the declarative line-split of
the raw captured byte stream (with a trailing unterminated line flushed,
the spec's chosen policy). -/
theorem c9_lines_delivered_in_order (raw : List Char) :
    copyOutput raw = lineSplit raw := by
  rw [copyOutput, lineReader_eq_consHead raw []]
  exact consHead_nil_pending _

end SafeLocalExec
